import Mathlib

/-!
Verification of `packages/wrangler/src/cloudchamber/list.ts`, the `list`
subcommand of the cloudchamber CLI.  The file is shallowly embedded: the
event-message renderer, the placement option builder with its refresh
action, and the non-interactive JSON output path are translated into
executable Lean definitions, and the spec claims are settled as theorems
about them.
-/

namespace Cloudchamber

/-! ## Styled terminal text

The color/theme utilities (`bgRed`, `dim`, `yellow`, `green`, `brandColor`,
`gray`, `white`, `bgCyan` from `@cloudflare/cli/colors`) are external
collaborators of the file under verification. -/

/-- Modelled from the spec: the color/theme formatting utilities are an
out-of-scope external interface; each one is modelled as an opaque style
tag attached to a text segment, so that distinct colorings are distinct
values and concatenation of colored strings is list append. -/
inductive Ansi where
  | dimStyle
  | yellowStyle
  | greenStyle
  | brandStyle
  | bgRedStyle
  | grayStyle
  | whiteStyle
  | bgCyanStyle
  | statusStyle
  deriving DecidableEq, Repr

/-- A segment of rendered text: a stack of applied styles and the raw text. -/
structure Seg where
  styles : List Ansi
  text : String
  deriving DecidableEq, Repr

/-- Plain (unstyled) text as a segment list. -/
def txt (s : String) : List Seg := [⟨[], s⟩]

/-- Apply a style to every segment of an already-rendered string. -/
def styledBy (a : Ansi) (xs : List Seg) : List Seg :=
  xs.map fun g => ⟨a :: g.styles, g.text⟩

def dim (s : String) : List Seg := styledBy .dimStyle (txt s)

def yellow (s : String) : List Seg := styledBy .yellowStyle (txt s)

def green (s : String) : List Seg := styledBy .greenStyle (txt s)

def brandColor (s : String) : List Seg := styledBy .brandStyle (txt s)

def bgRed (s : String) : List Seg := styledBy .bgRedStyle (txt s)

def white (s : String) : List Seg := styledBy .whiteStyle (txt s)

/-- `bgCyan` applied to an already-colored string, as in
`bgCyan(white(...))` in the source. -/
def bgCyan (xs : List Seg) : List Seg := styledBy .bgCyanStyle xs

/-- Modelled from the spec: `statusToColored` of `./cli/util` (a status
colorizer consumed as an opaque interface) renders a health status with
its own styling. -/
def statusToColored (health : String) : List Seg :=
  [⟨[.statusStyle], health⟩]

/-- Modelled from the spec: `space` of `@cloudflare/cli` produces `n`
spaces. -/
def space (n : Nat) : String := String.mk (List.replicate n ' ')

/-! ## Placement events and `eventMessage` -/

/-- A placement event as consumed by `eventMessage`: its `name`, `message`,
`time` and the `statusChange` object, modelled as a string-keyed
association list (the renderer reads only its `"health"` key). -/
structure PlacementEvent where
  name : String
  message : String
  statusChange : List (String × String)
  time : String
  deriving DecidableEq, Repr

/-- Translation of `eventMessage(event, lastEvent)` from
`cloudchamber/list.ts` lines 110-127: failed health gets a red `" X "`
marker plus dimmed message; otherwise the last `VMStopped` event is
yellow, the last `VMStarted` event and any `SSHStarted` event are green,
any other last event takes the brand color, and everything else is
dimmed; the event time is appended in parentheses. -/
def eventMessage (event : PlacementEvent) (lastEvent : Bool) : List Seg :=
  let name := event.name
  let health := event.statusChange.lookup "health"
  let message :=
    if health = some "failed" then
      bgRed " X " ++ txt " " ++ dim event.message
    else if lastEvent && (name == "VMStopped") then
      yellow event.message
    else if (lastEvent && (name == "VMStarted")) || (name == "SSHStarted") then
      green event.message
    else if lastEvent then
      brandColor event.message
    else
      dim event.message
  message ++ txt (" (" ++ event.time ++ ")")

/-! ## Placements, option entries and the refresh action -/

/-- A placement with its event history, as consumed by
`placementToOptions`: the fields read are `id`, `created_at`,
`deployment_version`, `status["health"]` and `events`. -/
structure Placement where
  id : String
  created_at : String
  deployment_version : Nat
  statusHealth : String
  events : List PlacementEvent
  deriving DecidableEq, Repr

/-- An entry of the interactive chooser: the shape returned by
`placementToOptions` (`label`, `details`, `value`). -/
structure OptionEntry where
  label : String
  details : List (List Seg)
  value : String
  deriving DecidableEq, Repr

/-- Translation of `placementToOptions` from `cloudchamber/list.ts` lines
139-154: label from the first six characters of the id and the creation
time, details listing id, version, colored status, an `Events` header and
one line per event (the last event flagged as last), value the id. -/
def placementToOptions (p : Placement) : OptionEntry :=
  { label := "Placement " ++ p.id.take 6 ++ " (" ++ p.created_at ++ ")"
    details :=
      [ txt "ID: " ++ dim p.id
      , txt "Version: " ++ dim (toString p.deployment_version)
      , txt "Status: " ++ statusToColored p.statusHealth
      , bgCyan (white "Events")
      ] ++ p.events.mapIdx
            (fun i event =>
              txt (space 1) ++ eventMessage event (i == p.events.length - 1))
    value := p.id }

/-- Translation of the `onRefresh` callback from `cloudchamber/list.ts`
lines 170-178: map the freshly fetched placements through
`placementToOptions`; if the surrounding prompt has already resolved
(`refresh` flag set) return the empty list; otherwise, when the option
list is non-empty, append a last-refresh timestamp to the first entry's
label.  The fetched placements and the formatted current time are passed
in as values. -/
def onRefresh (refreshDone : Bool) (fresh : List Placement) (now : String) :
    List OptionEntry :=
  let options := fresh.map placementToOptions
  if refreshDone then []
  else
    match options with
    | [] => []
    | o :: rest => { o with label := o.label ++ ", last refresh: " ++ now } :: rest

/-! ## JSON values and `JSON.stringify(value, null, 4)` -/

/-- JSON values, the payload of the non-interactive output path. -/
inductive Json where
  | null
  | bool (b : Bool)
  | num (n : Int)
  | str (s : String)
  | arr (items : List Json)
  | obj (fields : List (String × Json))

/-- JSON string escaping as performed by `JSON.stringify`. -/
def escapeChar (c : Char) : String :=
  if c = '"' then "\\\""
  else if c = '\\' then "\\\\"
  else if c = '\n' then "\\n"
  else if c = '\t' then "\\t"
  else if c = '\r' then "\\r"
  else String.singleton c

def escapeString (s : String) : String :=
  s.data.foldl (fun acc c => acc ++ escapeChar c) ""

def quoteJson (s : String) : String := "\"" ++ escapeString s ++ "\""

/-- The indentation of `JSON.stringify(v, null, 4)` at nesting depth `d`. -/
def pad (d : Nat) : String := String.mk (List.replicate (4 * d) ' ')

def joinSep (sep : String) : List String → String
  | [] => ""
  | [x] => x
  | x :: y :: xs => x ++ sep ++ joinSep sep (y :: xs)

/-- `JSON.stringify(v, null, 4)` at depth `d`: arrays and objects break
over lines with four more spaces per nesting level; empty arrays and
objects print without a line break. -/
def Json.render (v : Json) (d : Nat) : String :=
  match v with
  | .null => "null"
  | .bool b => if b then "true" else "false"
  | .num n => toString n
  | .str s => quoteJson s
  | .arr [] => "[]"
  | .arr items =>
      "[\n" ++
        joinSep ",\n"
          (items.attach.map fun x => pad (d + 1) ++ Json.render x.1 (d + 1)) ++
        "\n" ++ pad d ++ "]"
  | .obj [] => "\x7b\x7d"
  | .obj fields =>
      "\x7b\n" ++
        joinSep ",\n"
          (fields.attach.map fun kv =>
            pad (d + 1) ++ quoteJson kv.1.1 ++ ": " ++ Json.render kv.1.2 (d + 1)) ++
        "\n" ++ pad d ++ "\x7d"
  termination_by sizeOf v
  decreasing_by
  · simp_wf
    have := List.sizeOf_lt_of_mem x.2
    omega
  · simp_wf
    have h1 := List.sizeOf_lt_of_mem kv.2
    have h2 : sizeOf kv.1.2 < sizeOf kv.1 := by
      obtain ⟨a, b⟩ := kv.1
      simp
    omega

/-- `JSON.stringify(v, null, 4)`. -/
def stringify4 (v : Json) : String := Json.render v 0

/-- JavaScript object-literal update `{...fields, k: v}`: if `k` is
already a key its value is overwritten in place, otherwise the pair is
appended at the end. -/
def jsSpreadSet (fields : List (String × Json)) (k : String) (v : Json) :
    List (String × Json) :=
  if fields.any (fun kv => kv.1 = k) then
    fields.map (fun kv => if kv.1 = k then (k, v) else kv)
  else
    fields ++ [(k, v)]

/-! ## The `list` command handler -/

/-- A deployment as returned by `DeploymentsService.listDeployments`: the
handler reads its `id` and serializes the whole record, so the model
carries the id and the record's JSON object fields. -/
structure Deployment where
  id : String
  obj : List (String × Json)

def Deployment.toJson (d : Deployment) : Json := Json.obj d.obj

/-- JavaScript `String.prototype.startsWith`: the prefix's characters are
an initial segment of the string's characters. -/
def jsStartsWith (s pfx : String) : Bool := pfx.data.isPrefixOf s.data

/-- `deploymentArgs.deploymentIdPrefix ?? ""`: the positional prefix
argument defaults to the empty string when omitted. -/
def resolveIdPrefix (idPfx : Option String) : String := idPfx.getD ""

/-- The deployments kept by the id-prefix filter, line 80:
`.filter((deployment) => deployment.id.startsWith(prefix))`. -/
def keptDeployments (ds : List Deployment) (pfx : String) : List Deployment :=
  ds.filter (fun d => jsStartsWith d.id pfx)

/-- What the command handler produced: a printed JSON string or a
completed interactive session. -/
inductive Emitted where
  | printed (s : String)
  | interactive
  deriving DecidableEq, Repr

/-- The body wrapped by `handleFailure`, lines 69-103, with each fallible
external call passed in as its outcome: load the account, and on the
non-interactive path (`config.json || !isInteractive()`) fetch, filter and
print; on a unique match additionally fetch that deployment's placements
and print the merged record.  The interactive loop (lines 129-183) never
returns normally and is represented by the outcome `interactiveRun` of
running it. -/
def listCommandBody (loadAccount : Except String Unit)
    (listDeps : Except String (List Deployment))
    (listPls : String → Except String (List Json))
    (interactiveRun : Except String Emitted)
    (jsonFlag interactive : Bool) (idPfx : Option String) :
    Except String Emitted :=
  match loadAccount with
  | .error e => .error e
  | .ok () =>
    let pfx := resolveIdPrefix idPfx
    if jsonFlag || !interactive then
      match listDeps with
      | .error e => .error e
      | .ok all =>
        match keptDeployments all pfx with
        | [d] =>
          match listPls d.id with
          | .error e => .error e
          | .ok placements =>
            .ok (.printed (stringify4
              (Json.obj (jsSpreadSet d.obj "placements" (Json.arr placements)))))
        | kept =>
          .ok (.printed (stringify4 (Json.arr (kept.map Deployment.toJson))))
    else interactiveRun

/-- The outcome of the whole command: either what the body emitted, or the
failure handed to the generic failure handler. -/
inductive CmdResult where
  | done (e : Emitted)
  | failed (err : String)
  deriving DecidableEq, Repr

/-- Modelled from the spec: `handleFailure` of `./common` is the generic
top-level failure handler every failure is delegated to; it runs the
wrapped body and surfaces its error, with no retry. -/
def handleFailure (body : Except String Emitted) : CmdResult :=
  match body with
  | .ok e => .done e
  | .error err => .failed err

/-- The `list` command handler, lines 68-103: the body composed with the
generic failure handler. -/
def listCommandRun (loadAccount : Except String Unit)
    (listDeps : Except String (List Deployment))
    (listPls : String → Except String (List Json))
    (interactiveRun : Except String Emitted)
    (jsonFlag interactive : Bool) (idPfx : Option String) : CmdResult :=
  handleFailure
    (listCommandBody loadAccount listDeps listPls interactiveRun jsonFlag
      interactive idPfx)

/-- Stated from the spec's words: the emitted value for a given list of
matching deployments — "if exactly one deployment matches, emit that
deployment object merged with its placement list under key `placements`;
otherwise emit the array of matching deployments". -/
def specChoose (matching : List Deployment)
    (placementsOf : String → List Json) : Json :=
  if h : matching.length = 1 then
    let d := matching.head (by intro hnil; simp [hnil] at h)
    Json.obj (jsSpreadSet d.obj "placements" (Json.arr (placementsOf d.id)))
  else
    Json.arr (matching.map Deployment.toJson)

/-- Stated from the spec's words, for comparison with the code: the
non-interactive output for a fixed filter set, where a deployment matches
when the id-prefix filter keeps it. -/
def specNonInteractiveJson (ds : List Deployment)
    (placementsOf : String → List Json) (pfx : String) : Json :=
  specChoose (keptDeployments ds pfx) placementsOf

/-- The spec-side cardinality test agrees with the code-side pattern
match on the list of matching deployments. -/
theorem specChoose_eq_match (m : List Deployment)
    (placementsOf : String → List Json) :
    specChoose m placementsOf =
      match m with
      | [d] => Json.obj (jsSpreadSet d.obj "placements"
                 (Json.arr (placementsOf d.id)))
      | kept => Json.arr (kept.map Deployment.toJson) := by
  rcases m with _ | ⟨d, _ | ⟨d2, rest⟩⟩ <;> simp [specChoose, List.head]

/-! ## Helper lemmas and concrete instances -/

/-- On the machine-readable path with all external calls succeeding, the
command body prints exactly the serialization of the spec-side output
value. -/
theorem listCommandBody_machine (ds : List Deployment)
    (listPls : String → List Json) (interactiveRun : Except String Emitted)
    (jsonFlag interactive : Bool) (idPfx : Option String)
    (hmachine : (jsonFlag || !interactive) = true) :
    listCommandBody (.ok ()) (.ok ds) (fun i => .ok (listPls i)) interactiveRun
        jsonFlag interactive idPfx =
      .ok (.printed (stringify4
        (specNonInteractiveJson ds listPls (resolveIdPrefix idPfx)))) := by
  unfold listCommandBody specNonInteractiveJson
  rw [specChoose_eq_match]
  simp only [hmachine]
  generalize keptDeployments ds (resolveIdPrefix idPfx) = m
  rcases m with _ | ⟨d, _ | ⟨d2, rest⟩⟩ <;> rfl

/-- Unfolding equation: refreshing no placements yields no options. -/
theorem onRefresh_nil_eq (refreshDone : Bool) (now : String) :
    onRefresh refreshDone [] now = [] := by
  cases refreshDone <;> rfl

/-- Unfolding equation: refreshing a non-empty placement list maps every
placement through `placementToOptions` and appends the timestamp to the
first label. -/
theorem onRefresh_cons_eq (p : Placement) (rest : List Placement)
    (now : String) :
    onRefresh false (p :: rest) now =
      { placementToOptions p with
          label := (placementToOptions p).label ++ ", last refresh: " ++ now } ::
        rest.map placementToOptions := rfl

/-- A concrete failed-health event. -/
def evFailed : PlacementEvent :=
  { name := "VMStarted"
    message := "vm exited"
    statusChange := [("health", "failed")]
    time := "t0" }

/-- A concrete SSHStarted event with failed health. -/
def evSSHFailed : PlacementEvent :=
  { name := "SSHStarted"
    message := "ssh session"
    statusChange := [("health", "failed")]
    time := "t1" }

/-- A concrete healthy SSHStarted event. -/
def evSSH : PlacementEvent :=
  { name := "SSHStarted"
    message := "ssh session"
    statusChange := [("health", "running")]
    time := "t2" }

/-- A concrete healthy VMStopped event. -/
def evStop : PlacementEvent :=
  { name := "VMStopped"
    message := "vm stopped"
    statusChange := [("health", "stopped")]
    time := "t3" }

/-- A concrete placement used to instantiate the refresh theorems. -/
def pIdem : Placement :=
  { id := "abcdef123456"
    created_at := "2024-01-01"
    deployment_version := 3
    statusHealth := "healthy"
    events := [] }

/-- A second concrete placement used to instantiate the frame theorem. -/
def pFrame : Placement :=
  { id := "fedcba654321"
    created_at := "2024-02-02"
    deployment_version := 1
    statusHealth := "running"
    events := [] }

/-- A concrete deployment record. -/
def dEx : Deployment :=
  { id := "deploy-1"
    obj := [("id", Json.str "deploy-1"), ("image", Json.str "img")] }

/-! ## Claims -/

/-- C2: for every placement event whose `statusChange` health field equals
`"failed"`, `eventMessage` renders the message with the failure marker — a
red-background `" X "` prefix and the dimmed message — regardless of
whether the event is last and regardless of its name. -/
theorem eventMessage_failed_marker (e : PlacementEvent) (lastEvent : Bool)
    (h : e.statusChange.lookup "health" = some "failed") :
    eventMessage e lastEvent =
      bgRed " X " ++ txt " " ++ dim e.message ++ txt (" (" ++ e.time ++ ")") := by
  simp [eventMessage, h]

/-- C2 witness: the failure marker on a concrete failed, non-last
`VMStarted` event. -/
theorem eventMessage_failed_marker_witness :
    evFailed.statusChange.lookup "health" = some "failed" ∧
    eventMessage evFailed false =
      bgRed " X " ++ txt " " ++ dim evFailed.message ++
        txt (" (" ++ evFailed.time ++ ")") :=
  ⟨by decide, eventMessage_failed_marker evFailed false (by decide)⟩

/-- C3 counterexample: an `SSHStarted` event whose health is `"failed"`
does not render green — the failed-health branch takes priority — so the
claim that every `SSHStarted` event renders green, in every position, is
false as stated. -/
theorem eventMessage_ssh_green_counterexample :
    evSSHFailed.name = "SSHStarted" ∧
    eventMessage evSSHFailed true ≠
      green evSSHFailed.message ++ txt (" (" ++ evSSHFailed.time ++ ")") := by
  constructor
  · rfl
  · decide

/-- C3 (amended): every `SSHStarted` event whose health is not
`"failed"` renders green, in every position (last or not). -/
theorem eventMessage_ssh_green (e : PlacementEvent) (lastEvent : Bool)
    (hname : e.name = "SSHStarted")
    (hh : e.statusChange.lookup "health" ≠ some "failed") :
    eventMessage e lastEvent = green e.message ++ txt (" (" ++ e.time ++ ")") := by
  cases lastEvent <;> simp [eventMessage, hname, hh]

/-- C3 witness: a concrete healthy `SSHStarted` event in non-last
position renders green. -/
theorem eventMessage_ssh_green_witness :
    evSSH.name = "SSHStarted" ∧
    evSSH.statusChange.lookup "health" ≠ some "failed" ∧
    eventMessage evSSH false =
      green evSSH.message ++ txt (" (" ++ evSSH.time ++ ")") :=
  ⟨by decide, by decide, eventMessage_ssh_green evSSH false (by decide) (by decide)⟩

/-- C4: for events without failed health, a `VMStopped` event renders
yellow exactly when it is last, a `VMStarted` event renders green exactly
when it is last, and a non-last event that is neither `SSHStarted` nor
failed renders dimmed. -/
theorem eventMessage_last_highlight (e : PlacementEvent) (lastEvent : Bool)
    (hh : e.statusChange.lookup "health" ≠ some "failed") :
    (e.name = "VMStopped" →
      (eventMessage e lastEvent =
          yellow e.message ++ txt (" (" ++ e.time ++ ")") ↔ lastEvent = true)) ∧
    (e.name = "VMStarted" →
      (eventMessage e lastEvent =
          green e.message ++ txt (" (" ++ e.time ++ ")") ↔ lastEvent = true)) ∧
    (lastEvent = false → e.name ≠ "SSHStarted" →
      eventMessage e lastEvent = dim e.message ++ txt (" (" ++ e.time ++ ")")) := by
  refine ⟨fun hname => ?_, fun hname => ?_, fun hlast hname => ?_⟩ <;>
    cases lastEvent <;>
    simp_all [eventMessage, yellow, green, dim, brandColor, txt, styledBy, String.ext_iff]

/-- C4 witness: a concrete healthy `VMStopped` event renders yellow in
last position. -/
theorem eventMessage_last_highlight_witness :
    evStop.statusChange.lookup "health" ≠ some "failed" ∧
    (eventMessage evStop true =
      yellow evStop.message ++ txt (" (" ++ evStop.time ++ ")")) :=
  ⟨by decide,
    ((eventMessage_last_highlight evStop true (by decide)).1 (by decide)).mpr rfl⟩

/-- C5: if the placements are unchanged between two consecutive refresh
invocations, the two refreshes yield the same ordered option list —
same length, identical entries after the first, and first entries equal
in value and details, their labels sharing the same base and differing
only in the appended timestamp. -/
theorem onRefresh_idempotent (ps : List Placement) (t1 t2 : String) :
    (onRefresh false ps t1).length = (onRefresh false ps t2).length ∧
    (onRefresh false ps t1).drop 1 = (onRefresh false ps t2).drop 1 ∧
    (∀ o1 o2, (onRefresh false ps t1).head? = some o1 →
      (onRefresh false ps t2).head? = some o2 →
      o1.value = o2.value ∧ o1.details = o2.details ∧
      ∃ base, o1.label = base ++ ", last refresh: " ++ t1 ∧
              o2.label = base ++ ", last refresh: " ++ t2) := by
  rcases ps with _ | ⟨p, rest⟩
  · simp only [onRefresh_nil_eq]
    exact ⟨trivial, trivial, fun o1 o2 h1 => by cases h1⟩
  · simp only [onRefresh_cons_eq, List.head?_cons, List.drop_one, List.tail_cons,
      List.length_cons, Option.some.injEq]
    refine ⟨trivial, trivial, fun o1 o2 h1 h2 => ?_⟩
    cases h1
    cases h2
    exact ⟨rfl, rfl, (placementToOptions p).label, rfl, rfl⟩

/-- C5 witness: first entries of two refreshes of the same single
placement at times `T1` and `T2`. -/
theorem onRefresh_idempotent_witness :
    ({ placementToOptions pIdem with
        label := (placementToOptions pIdem).label ++ ", last refresh: " ++ "T1"
      } : OptionEntry).value =
    ({ placementToOptions pIdem with
        label := (placementToOptions pIdem).label ++ ", last refresh: " ++ "T2"
      } : OptionEntry).value ∧
    ({ placementToOptions pIdem with
        label := (placementToOptions pIdem).label ++ ", last refresh: " ++ "T1"
      } : OptionEntry).details =
    ({ placementToOptions pIdem with
        label := (placementToOptions pIdem).label ++ ", last refresh: " ++ "T2"
      } : OptionEntry).details ∧
    ∃ base,
      ({ placementToOptions pIdem with
          label := (placementToOptions pIdem).label ++ ", last refresh: " ++ "T1"
        } : OptionEntry).label = base ++ ", last refresh: " ++ "T1" ∧
      ({ placementToOptions pIdem with
          label := (placementToOptions pIdem).label ++ ", last refresh: " ++ "T2"
        } : OptionEntry).label = base ++ ", last refresh: " ++ "T2" :=
  (onRefresh_idempotent [pIdem] "T1" "T2").2.2 _ _ rfl rfl

/-- C8: the refresh action replaces the option list with the plain
mapping of the freshly fetched placements — every entry past the first is
exactly `placementToOptions` of its placement — and the first entry is
that mapping with the last-refresh timestamp appended to its label. -/
theorem onRefresh_frame (ps : List Placement) (now : String) :
    (onRefresh false ps now).drop 1 = (ps.map placementToOptions).drop 1 ∧
    (onRefresh false ps now).length = ps.length ∧
    (∀ p rest, ps = p :: rest →
      (onRefresh false ps now).head? =
        some { placementToOptions p with
                label := (placementToOptions p).label ++ ", last refresh: " ++ now }) := by
  rcases ps with _ | ⟨p, rest⟩
  · simp only [onRefresh_nil_eq]
    exact ⟨rfl, rfl, fun p rest h => by cases h⟩
  · simp only [onRefresh_cons_eq, List.map_cons, List.drop_one, List.tail_cons,
      List.length_cons, List.length_map, List.head?_cons]
    refine ⟨trivial, trivial, fun q qrest h => ?_⟩
    injection h with h1 h2
    subst h1 h2
    rfl

/-- C8 witness: refreshing a single placement decorates its first (and
only) option entry with the timestamp. -/
theorem onRefresh_frame_witness :
    (onRefresh false [pFrame] "T").head? =
      some { placementToOptions pFrame with
              label := (placementToOptions pFrame).label ++ ", last refresh: " ++ "T" } :=
  (onRefresh_frame [pFrame] "T").2.2 pFrame [] rfl

/-- C10: when the refresh fetch returns no placements, `onRefresh`
returns the empty option list (the timestamp append is guarded by a
non-emptiness check), whatever the state of the refresh flag. -/
theorem onRefresh_empty (refreshDone : Bool) (now : String) :
    onRefresh refreshDone [] now = [] := by
  cases refreshDone <;> rfl

/-- C9: the id-prefix filter keeps exactly the deployments whose id
starts with the prefix, an omitted positional argument resolves to the
empty prefix, and with the empty prefix every deployment is kept. -/
theorem keptDeployments_characterization (ds : List Deployment)
    (d : Deployment) (pfx : String) :
    (d ∈ keptDeployments ds pfx ↔ d ∈ ds ∧ jsStartsWith d.id pfx = true) ∧
    resolveIdPrefix none = "" ∧
    keptDeployments ds (resolveIdPrefix none) = ds := by
  refine ⟨?_, rfl, ?_⟩
  · simp [keptDeployments, List.mem_filter]
  · exact List.filter_eq_self.mpr fun a _ => by simp [jsStartsWith, resolveIdPrefix]

/-- C1: with every service call succeeding, the non-interactive path
prints exactly the serialization of the spec-side output: the filtered
deployment list, unless exactly one deployment matches, in which case
that record merged with its placements under key `placements`. -/
theorem listCommand_nonInteractive_output (ds : List Deployment)
    (listPls : String → List Json) (interactiveRun : Except String Emitted)
    (jsonFlag interactive : Bool) (idPfx : Option String)
    (hmachine : (jsonFlag || !interactive) = true) :
    listCommandRun (.ok ()) (.ok ds) (fun i => .ok (listPls i)) interactiveRun
        jsonFlag interactive idPfx =
      .done (.printed (stringify4
        (specNonInteractiveJson ds listPls (resolveIdPrefix idPfx)))) := by
  unfold listCommandRun
  rw [listCommandBody_machine ds listPls interactiveRun jsonFlag interactive
    idPfx hmachine]
  rfl

/-- C1 witness: a concrete run with the `--json` flag set, one deployment
returned and kept by the prefix filter. -/
theorem listCommand_nonInteractive_output_witness :
    ((true || !false) = true) ∧
    listCommandRun (.ok ()) (.ok [dEx]) (fun i => .ok [Json.str i])
        (.ok .interactive) true false (some "dep") =
      .done (.printed (stringify4
        (specNonInteractiveJson [dEx] (fun i => [Json.str i])
          (resolveIdPrefix (some "dep"))))) :=
  ⟨rfl, listCommand_nonInteractive_output [dEx] (fun i => [Json.str i])
    (.ok .interactive) true false (some "dep") rfl⟩

/-- C7: whenever the `--json` flag is set or the session is
non-interactive, the command prints the `JSON.stringify` serialization of
some JSON value with a 4-space indent — machine-readable output. -/
theorem listCommand_json_flag_output (ds : List Deployment)
    (listPls : String → List Json) (interactiveRun : Except String Emitted)
    (jsonFlag interactive : Bool) (idPfx : Option String)
    (hmachine : (jsonFlag || !interactive) = true) :
    ∃ j : Json,
      listCommandRun (.ok ()) (.ok ds) (fun i => .ok (listPls i)) interactiveRun
          jsonFlag interactive idPfx = .done (.printed (stringify4 j)) := by
  refine ⟨specNonInteractiveJson ds listPls (resolveIdPrefix idPfx), ?_⟩
  unfold listCommandRun
  rw [listCommandBody_machine ds listPls interactiveRun jsonFlag interactive
    idPfx hmachine]
  rfl

/-- C7 witness: a concrete run under the `--json` flag in an interactive
session prints serialized JSON. -/
theorem listCommand_json_flag_output_witness :
    ((true || !true) = true) ∧
    ∃ j : Json,
      listCommandRun (.ok ()) (.ok []) (fun i => .ok ((fun _ => []) i))
          (.ok .interactive) true true none = .done (.printed (stringify4 j)) :=
  ⟨rfl, listCommand_json_flag_output [] (fun _ => []) (.ok .interactive)
    true true none rfl⟩

/-- C6: the command handler is the body composed with the generic
failure handler, and every failure — account loading, deployment
listing, placement listing on the unique match, or the interactive
session — surfaces unchanged as that handler's failure outcome, with no
retry or recovery branch. -/
theorem listCommand_failure_delegation (loadAccount : Except String Unit)
    (listDeps : Except String (List Deployment))
    (listPls : String → Except String (List Json))
    (interactiveRun : Except String Emitted)
    (jsonFlag interactive : Bool) (idPfx : Option String) :
    (listCommandRun loadAccount listDeps listPls interactiveRun jsonFlag
        interactive idPfx =
      handleFailure (listCommandBody loadAccount listDeps listPls interactiveRun
        jsonFlag interactive idPfx)) ∧
    (∀ e, loadAccount = .error e →
      listCommandRun loadAccount listDeps listPls interactiveRun jsonFlag
        interactive idPfx = .failed e) ∧
    (∀ e, loadAccount = .ok () → (jsonFlag || !interactive) = true →
      listDeps = .error e →
      listCommandRun loadAccount listDeps listPls interactiveRun jsonFlag
        interactive idPfx = .failed e) ∧
    (∀ e d all, loadAccount = .ok () → (jsonFlag || !interactive) = true →
      listDeps = .ok all →
      keptDeployments all (resolveIdPrefix idPfx) = [d] →
      listPls d.id = .error e →
      listCommandRun loadAccount listDeps listPls interactiveRun jsonFlag
        interactive idPfx = .failed e) ∧
    (∀ e, loadAccount = .ok () → (jsonFlag || !interactive) = false →
      interactiveRun = .error e →
      listCommandRun loadAccount listDeps listPls interactiveRun jsonFlag
        interactive idPfx = .failed e) := by
  refine ⟨rfl, ?_, ?_, ?_, ?_⟩
  · intro e h
    subst h
    rfl
  · intro e h1 h2 h3
    subst h1 h3
    simp [listCommandRun, listCommandBody, handleFailure, h2]
  · intro e d all h1 h2 h3 h4 h5
    subst h1 h3
    simp [listCommandRun, listCommandBody, handleFailure, h2, h4, h5]
  · intro e h1 h2 h3
    subst h1 h3
    simp [listCommandRun, listCommandBody, handleFailure, h2]

/-- C6 witness: a failing account load surfaces as the failure handler's
outcome with the same error. -/
theorem listCommand_failure_delegation_witness :
    listCommandRun (.error "network error") (.ok []) (fun _ => .ok [])
        (.ok .interactive) true true none = .failed "network error" :=
  (listCommand_failure_delegation (.error "network error") (.ok [])
    (fun _ => .ok []) (.ok .interactive) true true none).2.1 "network error" rfl

end Cloudchamber
